import Mathlib

/-!
Shallow embedding of `src/index.js` (class `FieldMappingAgent`).

The script asks an LLM ("Oracle") for field-mapping suggestions between a
hardcoded target schema (`zoroFields`) and a hardcoded supplier schema,
stores the parsed suggestions in `this.mappingRules`, and reshapes them with
`getFinalMappingStructure` into one object per stored rule, keyed by each
suggestion's `zoroField`, with `direct: mapping.direct || ''` and
`formula: mapping.formula || ''`.

Modelling decisions, each noted again at the definition it concerns:
- JavaScript values reaching `mapping.direct` / `mapping.formula` are
  modelled by `JsValue` (undefined, null, booleans, integers, strings);
  `x || ''` is `jsOr x (JsValue.str "")`.
- A JS object used as a string-keyed dictionary is an insertion-ordered
  association list with unique keys; `obj[k] = v` is `setKey` (updates the
  first occurrence in place, else appends), property read is `lookupKey`.
- The Oracle interaction of `generateMappingSuggestions` is modelled by
  `OracleOutcome`: the promise rejecting, the response text failing
  `JSON.parse`, or a successfully parsed JSON document represented by its
  `mappings` property (`none` when the document has no usable `mappings`
  array, as for the response text `"{}"`).
- Suggestion target fields (`zoroField`) are modelled as strings; JS object
  key coercion of non-string keys is out of scope.
-/

set_option autoImplicit false

namespace FieldMappingAgent

/-- A JavaScript value, as far as this script inspects one: `undefined`,
`null`, a boolean, a number (modelled by `Int`; `NaN` is out of scope), or a
string. These are the values a parsed suggestion's `direct` / `formula`
properties can hold in the model. -/
inductive JsValue where
  | undef
  | null
  | bool (b : Bool)
  | num (n : Int)
  | str (s : String)
  deriving DecidableEq

/-- JavaScript truthiness of a `JsValue`: `undefined`, `null`, `false`,
`0` and `""` are falsy, everything else is truthy. -/
def truthy : JsValue → Bool
  | .undef => false
  | .null => false
  | .bool b => b
  | .num n => decide (n ≠ 0)
  | .str s => decide (s ≠ "")

/-- The JavaScript `a || b` operator on values: `a` when `a` is truthy,
otherwise `b`. `mapping.direct || ''` in the source is
`jsOr mapping.direct (JsValue.str "")`. -/
def jsOr (v fallback : JsValue) : JsValue :=
  if truthy v then v else fallback

/-- Whether a `JsValue` is a string. -/
def JsValue.isString : JsValue → Bool
  | .str _ => true
  | _ => false

/-- Whether a `JsValue` is a string, `null`, or `undefined` — the value
domain the spec's data model assigns to a suggestion's optional `direct` /
`formula` fields. -/
def isStringOrNullish : JsValue → Bool
  | .str _ => true
  | .null => true
  | .undef => true
  | _ => false

/-- One parsed suggestion entry, an element of the `mappings` array the
Oracle returns: `{zoroField, direct, formula}`. The target field name is
modelled as a string; `direct` and `formula` are arbitrary JS values since
the source never validates them. -/
structure Mapping where
  zoroField : String
  direct : JsValue
  formula : JsValue
  deriving DecidableEq

/-- One value of the output table built by `getFinalMappingStructure`:
the object `{direct: mapping.direct || '', formula: mapping.formula || ''}`
(source lines 157-160). -/
structure Entry where
  direct : JsValue
  formula : JsValue
  deriving DecidableEq

/-- The value stored for a suggestion: lines 157-160 of the source,
`{direct: mapping.direct || '', formula: mapping.formula || ''}`. -/
def entryOf (m : Mapping) : Entry :=
  ⟨jsOr m.direct (.str ""), jsOr m.formula (.str "")⟩

/-- The output table for one stored rule: the JS object
`formattedMappings`, modelled as an insertion-ordered association list with
unique keys. -/
abbrev Table := List (String × Entry)

/-- JS object assignment `obj[k] = v` on a string-keyed object modelled as
an insertion-ordered association list: update the first occurrence of `k`
in place, otherwise append `(k, v)` at the end. On lists with unique keys
(the invariant of every object built here, which starts empty) this is
exactly the JS semantics: an existing key keeps its position, a new key goes
last. -/
def setKey : Table → String → Entry → Table
  | [], k, v => [(k, v)]
  | p :: rest, k, v => if p.1 = k then (k, v) :: rest else p :: setKey rest k v

/-- JS property read `obj[k]` on the association-list model: the value at
the first occurrence of `k`, or `none` (undefined) when `k` is absent. -/
def lookupKey : Table → String → Option Entry
  | [], _ => none
  | p :: rest, k => if p.1 = k then some p.2 else lookupKey rest k

/-- The body of the `map` callback in `getFinalMappingStructure` (source
lines 153-163): start from an empty object and, for each suggestion in
order, assign `formattedMappings[mapping.zoroField] = {direct: ..., formula:
...}`. This is the code's whole normalization of one rule's suggestion
list; note it never consults the target field list. -/
def normalizeRule (ms : List Mapping) : Table :=
  ms.foldl (fun acc m => setKey acc m.zoroField (entryOf m)) []

/-- One element of `this.mappingRules` as pushed by
`processAllSupplierFiles` (source lines 136-139): `{supplierFile: '',
mappings: mappings.mappings}`. The `mappings` property of the parsed JSON
is `none` when the document had no usable `mappings` array (JS
`undefined`), in which case `rule.mappings.forEach` later throws. -/
structure Rule where
  supplierFile : String
  mappings : Option (List Mapping)
  deriving DecidableEq

/-- The error classes the script can raise: the Oracle call rejecting
(network/auth/rate-limit), `JSON.parse` throwing `SyntaxError`, and a
property access on `undefined` throwing `TypeError`. -/
inductive JsError where
  | oracleFailure
  | syntaxError
  | typeError
  deriving DecidableEq

/-- The `this.mappingRules.map(...)` of `getFinalMappingStructure`,
evaluated left to right; a rule whose `mappings` is `undefined` makes
`rule.mappings.forEach` throw `TypeError`, which propagates (the method has
no handler). -/
def mapRules : List Rule → Except JsError (List Table)
  | [] => .ok []
  | r :: rest =>
    match r.mappings with
    | none => .error .typeError
    | some ms =>
      match mapRules rest with
      | .error e => .error e
      | .ok ts => .ok (normalizeRule ms :: ts)

/-- The mutable fields of the `FieldMappingAgent` instance that the claims
touch: `this.zoroFields` and `this.mappingRules`. -/
structure AgentState where
  zoroFields : List String
  mappingRules : List Rule
  deriving DecidableEq

/-- `loadZoroFields` (source lines 19-31): overwrites `this.zoroFields`
with the hardcoded target schema. -/
def loadZoroFields (st : AgentState) : AgentState :=
  { st with zoroFields :=
      ["supplierSku", "product_id", "product_name", "price", "quantity",
       "is_available", "total_value"] }

/-- `loadSupplierFields` (source lines 34-41): resolves with the hardcoded
supplier schema; it never rejects. -/
def loadSupplierFields : List String :=
  ["PRODUCTCODE", "STOCK", "EXPECTEDDATE", "stock no", "primary",
   "secondary", "tertiary", "cstock", "direct", "isStocked"]

/-- The possible outcomes of the single
`openai.chat.completions.create` call inside `generateMappingSuggestions`,
abstracted to what the script observes:
- `callFailed`: the promise rejects (network/auth/rate-limit);
- `badJson`: the call resolves but the response text is not valid JSON, so
  `JSON.parse` throws `SyntaxError`;
- `parsed m`: the response text parses; the document is represented by its
  `mappings` property, `none` when absent or unusable (e.g. the valid JSON
  text `"{}"` gives `parsed none`). -/
inductive OracleOutcome where
  | callFailed
  | badJson
  | parsed (mappingsField : Option (List Mapping))
  deriving DecidableEq

/-- Whether the outcome is a failure arising inside
`generateMappingSuggestions` (a rejected call or a `JSON.parse` error). -/
def OracleOutcome.isFailure : OracleOutcome → Bool
  | .callFailed => true
  | .badJson => true
  | .parsed _ => false

/-- Whether the Oracle's response has the JSON shape documented in the
prompt: a JSON document with a `mappings` array. `parsed none` (valid JSON
without a usable `mappings` array) does not have it. -/
def hasDocumentedShape : OracleOutcome → Bool
  | .parsed (some _) => true
  | _ => false

/-- `generateMappingSuggestions` (source lines 49-81): one Oracle call,
then `JSON.parse` of the response text. The `catch` block logs and
rethrows the same error (`throw error`), so every failure propagates; a
successfully parsed document is returned with no validation of its shape. -/
def generateMappingSuggestions : OracleOutcome → Except JsError (Option (List Mapping))
  | .callFailed => .error .oracleFailure
  | .badJson => .error .syntaxError
  | .parsed m => .ok m

/-- `generateMappingSuggestions` paired with the number of outbound Oracle
calls the invocation performs. The source has a single call site (line 56,
the one `await this.openai.chat.completions.create(...)`) and no loop or
retry; both the return path and the catch-rethrow path sit after that one
call, so the count is 1 on every control path. -/
def generateMappingSuggestionsWithCalls (o : OracleOutcome) :
    Except JsError (Option (List Mapping)) × Nat :=
  (generateMappingSuggestions o, 1)

/-- `processAllSupplierFiles` (source lines 129-146): load the target
fields, then inside `try` request suggestions and push
`{supplierFile: '', mappings: mappings.mappings}` onto `this.mappingRules`;
the `catch` block only logs (line 144), so a failure leaves the stored
rules unchanged. -/
def processAllSupplierFiles (st : AgentState) (o : OracleOutcome) : AgentState :=
  let st1 := loadZoroFields st
  match generateMappingSuggestions o with
  | .error _ => st1
  | .ok m => { st1 with mappingRules := st1.mappingRules ++ [⟨"", m⟩] }

/-- `getFinalMappingStructure` (source lines 152-165): map each stored rule
to its formatted object. The target field list `this.zoroFields` is not
read at all. -/
def getFinalMappingStructure (st : AgentState) : Except JsError (List Table) :=
  mapRules st.mappingRules

/-- `getFinalMappingStructure` together with the agent state after the
call. The method body reads `this.mappingRules` and assigns only to the
local `formattedMappings`; it contains no write to `this`, so the state
after the call is the state before it. -/
def getFinalMappingStructureRun (st : AgentState) :
    Except JsError (List Table) × AgentState :=
  (mapRules st.mappingRules, st)

/-- Insert a key at the end of a key list unless already present: the key
evolution of one JS object assignment. -/
def insertKey (ks : List String) (k : String) : List String :=
  if k ∈ ks then ks else ks ++ [k]

/-- First-occurrence deduplication of a key list, the order in which a JS
object built by successive assignments lists its keys. -/
def dedupFirst (l : List String) : List String :=
  l.foldl insertKey []

/-! Helper lemmas about the association-list model of JS objects. -/

/-- Reading key `f` after assigning key `k` gives the assigned value when
`f = k` and the previous value otherwise. -/
theorem lookupKey_setKey (l : Table) (k f : String) (v : Entry) :
    lookupKey (setKey l k v) f = if f = k then some v else lookupKey l f := by
  induction l with
  | nil =>
    by_cases h : f = k
    · subst h; simp [setKey, lookupKey]
    · simp [setKey, lookupKey, h]
      exact fun hk => h hk.symm
  | cons p rest ih =>
    by_cases hpk : p.1 = k <;> by_cases hpf : p.1 = f <;> by_cases hfk : f = k <;>
      simp_all [setKey, lookupKey]

/-- Assigning key `k` leaves the key list unchanged when `k` is already
present and appends `k` otherwise. -/
theorem keys_setKey (l : Table) (k : String) (v : Entry) :
    (setKey l k v).map Prod.fst = insertKey (l.map Prod.fst) k := by
  induction l with
  | nil => simp [setKey, insertKey]
  | cons p rest ih =>
    by_cases hpk : p.1 = k
    · simp [setKey, insertKey, hpk]
    · have hkp : ¬k = p.1 := fun h => hpk h.symm
      by_cases hk : k ∈ rest.map Prod.fst <;>
        simp_all [setKey, insertKey, hkp]

/-- Key evolution of the normalization fold, generalized over the
accumulator object. -/
theorem keys_normalizeRule_aux (ms : List Mapping) (acc : Table) :
    (ms.foldl (fun a m => setKey a m.zoroField (entryOf m)) acc).map Prod.fst
      = (ms.map Mapping.zoroField).foldl insertKey (acc.map Prod.fst) := by
  induction ms generalizing acc with
  | nil => rfl
  | cons m rest ih => simp [ih, keys_setKey]

/-- The keys of a normalized rule are the suggestions' target fields,
deduplicated to their first occurrences, in order. -/
theorem keys_normalizeRule (ms : List Mapping) :
    (normalizeRule ms).map Prod.fst = dedupFirst (ms.map Mapping.zoroField) :=
  keys_normalizeRule_aux ms []

/-- `insertKey` preserves distinctness of the key list. -/
theorem nodup_insertKey (ks : List String) (k : String) (h : ks.Nodup) :
    (insertKey ks k).Nodup := by
  unfold insertKey
  split
  · exact h
  · next hk => simp [List.nodup_append, h, hk]

/-- The fold of `insertKey` preserves distinctness of the key list. -/
theorem nodup_dedupFirst_aux (l : List String) (ks : List String) (h : ks.Nodup) :
    (l.foldl insertKey ks).Nodup := by
  induction l generalizing ks with
  | nil => exact h
  | cons a rest ih => exact ih _ (nodup_insertKey _ _ h)

/-- First-occurrence deduplication yields distinct keys. -/
theorem nodup_dedupFirst (l : List String) : (dedupFirst l).Nodup :=
  nodup_dedupFirst_aux l [] List.nodup_nil

/-- Membership in `insertKey`. -/
theorem mem_insertKey (ks : List String) (k a : String) :
    a ∈ insertKey ks k ↔ a ∈ ks ∨ a = k := by
  unfold insertKey
  split
  · next hk => constructor
               · exact Or.inl
               · rintro (h | rfl)
                 · exact h
                 · exact hk
  · simp

/-- Membership in the fold of `insertKey`, generalized over the start. -/
theorem mem_dedupFirst_aux (l : List String) (ks : List String) (a : String) :
    a ∈ l.foldl insertKey ks ↔ a ∈ ks ∨ a ∈ l := by
  induction l generalizing ks with
  | nil => simp
  | cons b rest ih =>
    rw [List.foldl_cons, ih, mem_insertKey]
    simp
    tauto

/-- First-occurrence deduplication preserves membership. -/
theorem mem_dedupFirst (l : List String) (a : String) :
    a ∈ dedupFirst l ↔ a ∈ l := by
  rw [dedupFirst, mem_dedupFirst_aux]
  simp

/-- A fold over suggestions none of which target `f` leaves the value at
key `f` unchanged. -/
theorem lookupKey_foldl_untouched (ms : List Mapping) (acc : Table) (f : String)
    (h : ∀ m ∈ ms, m.zoroField ≠ f) :
    lookupKey (ms.foldl (fun a m => setKey a m.zoroField (entryOf m)) acc) f
      = lookupKey acc f := by
  induction ms generalizing acc with
  | nil => rfl
  | cons m rest ih =>
    rw [List.foldl_cons, ih _ fun m' hm' => h m' (List.mem_cons_of_mem _ hm'),
      lookupKey_setKey, if_neg fun hf => h m (List.mem_cons_self _ _) hf.symm]

/-- Appending a well-formed rule extends the result of `mapRules` by that
rule's normalized table, preserving all earlier tables. -/
theorem mapRules_append_ok (rules : List Rule) (ts : List Table) (ms : List Mapping)
    (h : mapRules rules = .ok ts) :
    mapRules (rules ++ [⟨"", some ms⟩]) = .ok (ts ++ [normalizeRule ms]) := by
  induction rules generalizing ts with
  | nil =>
    simp only [mapRules, Except.ok.injEq] at h
    subst h
    simp [mapRules]
  | cons r rest ih =>
    cases hm : r.mappings with
    | none => rw [mapRules, hm] at h; exact absurd h (by simp)
    | some ms' =>
      rw [mapRules, hm] at h
      cases hr : mapRules rest with
      | error e => rw [hr] at h; exact absurd h (by simp)
      | ok ts' =>
        rw [hr] at h
        simp only [Except.ok.injEq] at h
        subst h
        rw [List.cons_append, mapRules, hm, ih ts' hr]
        rfl

/-! Claim theorems. -/

/-- Claim C1, counterexample. The claim says that with target field list
`["price"]` and an empty suggestion list, normalization produces one entry
per target field, defaulting `price` to empty strings. In the code the
target field list is never consulted: the produced table is empty and has
no entry for `price` at all. -/
theorem normalize_drops_unnamed_targets :
    getFinalMappingStructure ⟨["price"], [⟨"", some []⟩]⟩ = .ok [[]] ∧
    lookupKey [] "price" = none :=
  ⟨rfl, rfl⟩

/-- Claim C1, amended: for every suggestion list, the normalized table has
exactly one entry per distinct target field named by the suggestions, in
order of first occurrence; target fields named by no suggestion are absent
rather than defaulted. -/
theorem normalize_keys_eq_dedupFirst (ms : List Mapping) :
    (normalizeRule ms).map Prod.fst = dedupFirst (ms.map Mapping.zoroField) ∧
    ((normalizeRule ms).map Prod.fst).Nodup :=
  ⟨keys_normalizeRule ms, by rw [keys_normalizeRule]; exact nodup_dedupFirst _⟩

/-- Claim C2, counterexample. A suggestion whose target field
`unknown_field` is not in the hardcoded target field list is not dropped:
it becomes an output entry, and no discard counter exists anywhere in the
state or the result. -/
theorem unknown_target_field_kept :
    getFinalMappingStructure ⟨(loadZoroFields ⟨[], []⟩).zoroFields,
        [⟨"", some [⟨"unknown_field", .str "X", .undef⟩]⟩]⟩
      = .ok [[("unknown_field", ⟨.str "X", .str ""⟩)]] ∧
    "unknown_field" ∉ (loadZoroFields ⟨[], []⟩).zoroFields := by
  refine ⟨rfl, ?_⟩
  decide

/-- Claim C2, amended: the keys of the normalized table are exactly the
target fields named by the suggestions — they are not filtered against the
target field list, so a suggestion naming an unknown field is kept as an
entry rather than dropped and counted. -/
theorem normalize_keys_iff_suggested (ms : List Mapping) (f : String) :
    f ∈ (normalizeRule ms).map Prod.fst ↔ f ∈ ms.map Mapping.zoroField := by
  rw [keys_normalizeRule]
  exact mem_dedupFirst _ _

/-- Claim C3: every failure arising inside the Requester
(`generateMappingSuggestions`: a rejected Oracle call or a `JSON.parse`
error — its `catch` logs and rethrows) and every failure arising inside the
Normalizer (`getFinalMappingStructure`: a stored rule whose `mappings` is
undefined — the method has no handler) is propagated to the caller as an
error, never swallowed into a success value. -/
theorem requester_normalizer_propagate_failures :
    (∀ o : OracleOutcome, o.isFailure = true →
      ∃ e, generateMappingSuggestions o = .error e) ∧
    (∀ rules : List Rule, (∃ r ∈ rules, r.mappings = none) →
      ∃ e, mapRules rules = .error e) := by
  constructor
  · intro o h
    cases o with
    | callFailed => exact ⟨.oracleFailure, rfl⟩
    | badJson => exact ⟨.syntaxError, rfl⟩
    | parsed m => exact absurd h (by simp [OracleOutcome.isFailure])
  · intro rules h
    induction rules with
    | nil => simp at h
    | cons r rest ih =>
      cases hm : r.mappings with
      | none => exact ⟨.typeError, by rw [mapRules, hm]⟩
      | some ms =>
        obtain ⟨r', hr', hnone⟩ := h
        rcases List.mem_cons.mp hr' with rfl | hmem
        · exact absurd hnone (by simp [hm])
        · obtain ⟨e, he⟩ := ih ⟨r', hmem, hnone⟩
          exact ⟨e, by rw [mapRules, hm, he]⟩

/-- Witness for claim C3: a rejected Oracle call propagates out of the
Requester, and a rule with an undefined `mappings` makes the Normalizer
fail rather than return a table. -/
theorem requester_normalizer_propagate_failures_witness :
    (∃ e, generateMappingSuggestions .callFailed = .error e) ∧
    (∃ e, mapRules [⟨"", none⟩] = .error e) :=
  ⟨requester_normalizer_propagate_failures.1 .callFailed rfl,
   requester_normalizer_propagate_failures.2 [⟨"", none⟩]
     ⟨⟨"", none⟩, by simp, rfl⟩⟩

/-- Claim C4, counterexample. A response that is syntactically valid JSON
but lacks the documented shape (the text `"{}"`, modelled as
`parsed none`) does not make the request fail: it is returned as a success,
a rule is stored for the invocation, and that partial result is observable
afterwards (the stored rule later makes `getFinalMappingStructure` throw). -/
theorem wrong_shape_json_accepted :
    hasDocumentedShape (.parsed none) = false ∧
    generateMappingSuggestions (.parsed none) = .ok none ∧
    (processAllSupplierFiles ⟨[], []⟩ (.parsed none)).mappingRules = [⟨"", none⟩] ∧
    getFinalMappingStructure (processAllSupplierFiles ⟨[], []⟩ (.parsed none))
      = .error .typeError :=
  ⟨rfl, rfl, rfl, rfl⟩

/-- Claim C4, amended: only a response whose text is not valid JSON (or a
failed call) makes the request fail, and then the failure propagates and
the stored rules are unchanged, so no mapping table results from the
invocation; a syntactically valid JSON response is accepted without any
validation of the documented shape. -/
theorem only_invalid_json_fails_request :
    generateMappingSuggestions .badJson = .error .syntaxError ∧
    generateMappingSuggestions .callFailed = .error .oracleFailure ∧
    (∀ st : AgentState,
      (processAllSupplierFiles st .badJson).mappingRules = st.mappingRules) ∧
    (∀ st : AgentState,
      (processAllSupplierFiles st .callFailed).mappingRules = st.mappingRules) ∧
    (∀ m, generateMappingSuggestions (.parsed m) = .ok m) :=
  ⟨rfl, rfl, fun _ => rfl, fun _ => rfl, fun _ => rfl⟩

/-- Claim C5: last-write-wins. If a suggestion list decomposes as
`ms₁ ++ m :: ms₂` where no suggestion in `ms₂` targets `m`'s field — that
is, `m` is the latest suggestion for its field in input order — then the
normalized entry for that field is the normalization of `m`. -/
theorem last_write_wins (ms₁ ms₂ : List Mapping) (m : Mapping)
    (h : ∀ m' ∈ ms₂, m'.zoroField ≠ m.zoroField) :
    lookupKey (normalizeRule (ms₁ ++ m :: ms₂)) m.zoroField = some (entryOf m) := by
  unfold normalizeRule
  rw [List.foldl_append, List.foldl_cons, lookupKey_foldl_untouched _ _ _ h,
    lookupKey_setKey, if_pos rfl]

/-- Witness for claim C5, the claim's own example: suggestions
`[{price, direct A}, {price, direct B}]` normalize `price` to
`{direct: B, formula: ""}`. -/
theorem last_write_wins_witness :
    lookupKey (normalizeRule [⟨"price", .str "A", .undef⟩,
        ⟨"price", .str "B", .undef⟩]) "price"
      = some ⟨.str "B", .str ""⟩ := by
  have h := last_write_wins [⟨"price", .str "A", .undef⟩] []
    ⟨"price", .str "B", .undef⟩ (by simp)
  exact h

/-- Claim C6: a later supplier-processing invocation does not disturb the
tables of earlier invocations — a successful invocation appends one new
table, computed from that invocation's own suggestions alone, and every
earlier table is reproduced unchanged. -/
theorem later_invocation_preserves_tables (st : AgentState) (o : OracleOutcome)
    (ts : List Table) (ms : List Mapping)
    (h1 : getFinalMappingStructure st = .ok ts)
    (h2 : generateMappingSuggestions o = .ok (some ms)) :
    getFinalMappingStructure (processAllSupplierFiles st o)
      = .ok (ts ++ [normalizeRule ms]) := by
  unfold processAllSupplierFiles
  rw [h2]
  exact mapRules_append_ok st.mappingRules ts ms h1

/-- Witness for claim C6: after one stored empty rule, a second successful
invocation yields the old table followed by the new invocation's table. -/
theorem later_invocation_preserves_tables_witness :
    getFinalMappingStructure (processAllSupplierFiles ⟨[], [⟨"", some []⟩]⟩
        (.parsed (some [⟨"price", .str "A", .undef⟩])))
      = .ok [[], [("price", ⟨.str "A", .str ""⟩)]] := by
  have h := later_invocation_preserves_tables ⟨[], [⟨"", some []⟩]⟩
    (.parsed (some [⟨"price", .str "A", .undef⟩])) [[]]
    [⟨"price", .str "A", .undef⟩] rfl rfl
  exact h

/-- Claim C7, counterexample. With an empty target field list (and one
stored rule with no suggestions) normalization does not fail with a
`SchemaError`: it returns successfully, and the returned table has zero
entries. -/
theorem empty_targets_returns_table :
    getFinalMappingStructure ⟨[], [⟨"", some []⟩]⟩ = .ok [[]] :=
  rfl

/-- Claim C7, amended: normalization never consults the target field list
and never raises a `SchemaError` — the result is the same for any two
target field lists, and with an empty target field list it still returns a
table (zero-entry when the suggestion list is empty). -/
theorem normalization_never_schema_fails :
    (∀ (zf zf' : List String) (rules : List Rule),
      getFinalMappingStructure ⟨zf, rules⟩ = getFinalMappingStructure ⟨zf', rules⟩) ∧
    (∀ ms : List Mapping,
      getFinalMappingStructure ⟨[], [⟨"", some ms⟩]⟩ = .ok [normalizeRule ms]) :=
  ⟨fun _ _ _ => rfl, fun _ => rfl⟩

/-- Claim C8: every invocation of the suggestion-request operation performs
exactly one outbound Oracle call — on the success path and on every failure
path alike — and returns the same result as the uninstrumented operation. -/
theorem exactly_one_oracle_call (o : OracleOutcome) :
    (generateMappingSuggestionsWithCalls o).2 = 1 ∧
    (generateMappingSuggestionsWithCalls o).1 = generateMappingSuggestions o :=
  ⟨rfl, rfl⟩

/-- Claim C9: `getFinalMappingStructure` is a read-only query — it leaves
the agent state (in particular the stored mapping rules) unchanged, and a
second call on the resulting state returns the same result as the first. -/
theorem getFinalMappingStructure_readonly (st : AgentState) :
    (getFinalMappingStructureRun st).2 = st ∧
    (getFinalMappingStructureRun ((getFinalMappingStructureRun st).2)).1
      = (getFinalMappingStructureRun st).1 :=
  ⟨rfl, rfl⟩

/-- Claim C10, counterexample. A truthy non-string suggestion value is
passed through unchanged: the suggestion `{zoroField: "price", direct: 1}`
(a JSON number) yields the output entry `{direct: 1, formula: ""}` whose
`direct` is not a string. -/
theorem truthy_nonstring_passes_through :
    normalizeRule [⟨"price", .num 1, .undef⟩]
      = [("price", ⟨.num 1, .str ""⟩)] ∧
    JsValue.isString (.num 1) = false :=
  ⟨rfl, rfl⟩

/-- Claim C10, amended: a falsy `direct` or `formula` value (missing,
`null`, `false`, `0`, or the empty string) is replaced by `""`, while a
truthy value is passed through unchanged; consequently both output fields
are strings whenever the suggestion's values are strings, `null`, or
missing, but not for truthy non-string values. -/
theorem falsy_replaced_truthy_kept (m : Mapping) :
    (truthy m.direct = false → (entryOf m).direct = .str "") ∧
    (truthy m.formula = false → (entryOf m).formula = .str "") ∧
    (truthy m.direct = true → (entryOf m).direct = m.direct) ∧
    (truthy m.formula = true → (entryOf m).formula = m.formula) ∧
    (isStringOrNullish m.direct = true → ((entryOf m).direct).isString = true) ∧
    (isStringOrNullish m.formula = true → ((entryOf m).formula).isString = true) := by
  obtain ⟨z, d, f⟩ := m
  refine ⟨?_, ?_, ?_, ?_, ?_, ?_⟩
  · intro h; simp [entryOf, jsOr, h]
  · intro h; simp [entryOf, jsOr, h]
  · intro h; simp [entryOf, jsOr, h]
  · intro h; simp [entryOf, jsOr, h]
  · intro h
    cases d with
    | bool b => simp [isStringOrNullish] at h
    | num n => simp [isStringOrNullish] at h
    | undef => simp [entryOf, jsOr, truthy, JsValue.isString]
    | null => simp [entryOf, jsOr, truthy, JsValue.isString]
    | str s =>
      by_cases hs : s = "" <;>
        simp [entryOf, jsOr, truthy, JsValue.isString, hs]
  · intro h
    cases f with
    | bool b => simp [isStringOrNullish] at h
    | num n => simp [isStringOrNullish] at h
    | undef => simp [entryOf, jsOr, truthy, JsValue.isString]
    | null => simp [entryOf, jsOr, truthy, JsValue.isString]
    | str s =>
      by_cases hs : s = "" <;>
        simp [entryOf, jsOr, truthy, JsValue.isString, hs]

/-- Witness for claim C10: a missing `direct` (here `null`) comes out as
the empty string. -/
theorem falsy_replaced_truthy_kept_witness :
    (entryOf ⟨"is_available", .null, .str "x"⟩).direct = .str "" :=
  (falsy_replaced_truthy_kept ⟨"is_available", .null, .str "x"⟩).1 rfl

end FieldMappingAgent
